import Mathlib

/-!
Verification development for the gym-buddy repository (gym_supervisor).

The Python sources (gym_supervisor/db.py, gym_supervisor/bot.py) are shallowly
embedded below.  Strings are modelled as `String` / `List Char` restricted to
ASCII semantics, Python `float` values as exact rationals (`ℚ`), Python `int`
as `Int`/`Nat`, and the Postgres tables as Lean lists inside an explicit
`GymDB` state record.  Naive Pacific timestamps (ISO strings in the code,
which compare lexicographically exactly as they compare chronologically) are
modelled by a `DateTime` record ordered lexicographically.
-/

namespace GymBuddy

/-! ### Character classes (ASCII model of Python `re` / `str` semantics) -/

/-- Python `\d` on ASCII text. -/
def isPyDigit (c : Char) : Bool := '0' ≤ c && c ≤ '9'

/-- Python `\s` on ASCII text: space, tab, newline, vertical tab, form feed,
carriage return. -/
def isPySpace (c : Char) : Bool :=
  c = ' ' || c = '\t' || c = '\n' || c = Char.ofNat 11 || c = Char.ofNat 12 || c = '\r'

/-- Python `\w` (word character) on ASCII text: letters, digits, underscore. -/
def isPyWord (c : Char) : Bool :=
  ('a' ≤ c && c ≤ 'z') || ('A' ≤ c && c ≤ 'Z') || isPyDigit c || c = '_'

/-- Python `str.lower` on an ASCII character. -/
def pyLower (c : Char) : Char :=
  if 'A' ≤ c && c ≤ 'Z' then Char.ofNat (c.toNat + 32) else c

/-- `c` is an ASCII lowercase letter or digit (the characters kept by
`_normalize_workout_type_key`). -/
def isKeyChar (c : Char) : Bool := ('a' ≤ c && c ≤ 'z') || isPyDigit c

/-! ### List-of-characters helpers for Python string operations -/

/-- Remove leading and trailing characters drawn from `bad`
(Python `str.strip(chars)`). -/
def stripChars (bad : List Char) (cs : List Char) : List Char :=
  ((cs.dropWhile (bad.contains ·)).reverse.dropWhile (bad.contains ·)).reverse

/-- Python `str.strip()` (whitespace at both ends). -/
def pyStrip (cs : List Char) : List Char :=
  ((cs.dropWhile isPySpace).reverse.dropWhile isPySpace).reverse

/-- Python `re.sub(r"\s+", " ", s)`: each maximal whitespace run becomes one
space.  Implemented with explicit fuel (one unit per character, which always
suffices because every step consumes at least one character). -/
def collapseWsGo : Nat → List Char → List Char
  | 0, _ => []
  | _, [] => []
  | fuel + 1, c :: cs =>
    if isPySpace c then ' ' :: collapseWsGo fuel (cs.dropWhile isPySpace)
    else c :: collapseWsGo fuel cs

def collapseWs (cs : List Char) : List Char := collapseWsGo cs.length cs

/-! ### String wrappers -/

def pyStripStr (s : String) : String := String.mk (pyStrip s.toList)

def pyLowerStr (s : String) : String := String.mk (s.toList.map pyLower)

/-- `GymDB._normalize_workout_label`:
`re.sub(r"\s+", " ", value.strip().lower())`. -/
def normalizeWorkoutLabel (s : String) : String :=
  String.mk (collapseWs ((pyStrip s.toList).map pyLower))

/-- `GymDB._normalize_workout_type_key`:
`re.sub(r"[^a-z0-9]+", "", value.strip().lower())`. -/
def normalizeWorkoutTypeKey (s : String) : String :=
  String.mk (((pyStrip s.toList).map pyLower).filter isKeyChar)

/-! ### Numeric token values -/

/-- Value of a decimal digit string (Python `int` of a digit run). -/
def digitsToNat (cs : List Char) : Nat :=
  cs.foldl (fun n c => 10 * n + (c.toNat - '0'.toNat)) 0

/-- Exact value of a numeric token matched by `\d+(?:\.\d+)?` /
`\d{1,4}(?:\.\d+)?`.  Python converts with `float`; we use the exact rational
value (binary rounding of `float` is not modelled; it does not affect any of
the claims settled here, whose bounds are reached exactly). -/
def ratOfNumToken (cs : List Char) : ℚ :=
  let intPart := cs.takeWhile isPyDigit
  match cs.drop intPart.length with
  | '.' :: f => (digitsToNat intPart : ℚ) + (digitsToNat f : ℚ) / ((10 : ℚ) ^ f.length)
  | _ => (digitsToNat intPart : ℚ)

/-- Python `int()` applied to a (rational-valued) float: truncation toward
zero. -/
def pyInt (q : ℚ) : Int := if 0 ≤ q then ⌊q⌋ else -⌊-q⌋

/-! ### The explicit set pattern of `GymSupervisorBot._parse_workout_entry`

`re.findall(r"\b(\d{1,4}(?:\.\d+)?)\s*(?:lb)?\s*[xX@]\s*(\d{1,3})\b", s, re.IGNORECASE)`.

For this particular pattern, Python's backtracking search is deterministic at
each start position:
* shortening the greedy `\d{1,4}` (or the `\d+` of the fractional part) always
  leaves a digit as the next character, which none of the following tokens
  (`\.`, `\s*`, `lb`, `[xX@]`) can consume, so the maximal digit runs are the
  only viable choices and a run longer than the repetition bound kills the
  whole attempt;
* giving back characters from a greedy `\s*` leaves a whitespace character
  facing `lb` / `[xX@]`, which fails, so the maximal whitespace run is forced;
* skipping an `lb` that is present leaves `l` facing `[xX@]`, which fails, so
  consuming it is forced;
* the final `\d{1,3}` is followed by `\b`, so the maximal digit run must have
  length ≤ 3 and be followed by a non-word character (or the end).

`matchExplicitAt` implements exactly this decision at one start position
(`prevWord` says whether the character before the position is a word
character, for the leading `\b`; the first matched character is always a
digit, hence a word character). -/

def matchExplicitAt (prevWord : Bool) (cs : List Char) :
    Option (List Char × List Char × List Char) :=
  if prevWord then none
  else
    let d := cs.takeWhile isPyDigit
    if d.length = 0 || 4 < d.length then none
    else
      let rest1 := cs.drop d.length
      let (g1, rest2) :=
        match rest1 with
        | '.' :: r =>
          let f := r.takeWhile isPyDigit
          if f.length = 0 then (d, rest1) else (d ++ '.' :: f, r.drop f.length)
        | _ => (d, rest1)
      let rest3 := rest2.dropWhile isPySpace
      let rest4 :=
        match rest3 with
        | a :: b :: r => if pyLower a = 'l' && pyLower b = 'b' then r else rest3
        | _ => rest3
      let rest5 := rest4.dropWhile isPySpace
      match rest5 with
      | [] => none
      | x :: r6 =>
        if x = 'x' || x = 'X' || x = '@' then
          let r7 := r6.dropWhile isPySpace
          let g2 := r7.takeWhile isPyDigit
          if g2.length = 0 || 3 < g2.length then none
          else
            let r8 := r7.drop g2.length
            let boundaryOk := match r8 with | [] => true | c :: _ => !isPyWord c
            if boundaryOk then some (g1, g2, r8) else none
        else none

/-- Non-overlapping left-to-right scan of `matchExplicitAt` (the semantics of
`re.findall` for the explicit pattern).  Fuel is one unit per character; a
successful match consumes at least three characters, a failed attempt one, so
the fuel never runs out when started at the list length. -/
def findExplicitGo : Nat → Bool → List Char → List (List Char × List Char)
  | 0, _, _ => []
  | _, _, [] => []
  | fuel + 1, prevWord, c :: cs =>
    match matchExplicitAt prevWord (c :: cs) with
    | some (g1, g2, rest) => (g1, g2) :: findExplicitGo fuel true rest
    | none => findExplicitGo fuel (isPyWord c) cs

def findExplicit (cs : List Char) : List (List Char × List Char) :=
  findExplicitGo cs.length false cs

/-- `re.findall(r"\d+(?:\.\d+)?", s)`: numeric tokens, leftmost and maximal,
non-overlapping. -/
def findNumbersGo : Nat → List Char → List (List Char)
  | 0, _ => []
  | _, [] => []
  | fuel + 1, c :: cs =>
    if isPyDigit c then
      let d := (c :: cs).takeWhile isPyDigit
      let rest1 := (c :: cs).drop d.length
      match rest1 with
      | '.' :: r =>
        let f := r.takeWhile isPyDigit
        if f.length = 0 then d :: findNumbersGo fuel rest1
        else (d ++ '.' :: f) :: findNumbersGo fuel (r.drop f.length)
      | _ => d :: findNumbersGo fuel rest1
    else findNumbersGo fuel cs

def findNumbers (cs : List Char) : List (List Char) :=
  findNumbersGo cs.length cs

/-! ### `GymSupervisorBot._parse_workout_entry` -/

/-- The bounds filter applied to every candidate pair
(`1 <= reps <= 100 and 0 < weight <= 2000`). -/
def pairInBounds (reps : Int) (weight : ℚ) : Bool :=
  decide (1 ≤ reps ∧ reps ≤ 100 ∧ 0 < weight ∧ weight ≤ 2000)

/-- Loop over the explicit matches: keep `(reps, weight)` when in bounds. -/
def explicitPairs (ms : List (List Char × List Char)) : List (Nat × ℚ) :=
  ms.filterMap fun m =>
    let reps := digitsToNat m.2
    let weight := ratOfNumToken m.1
    if pairInBounds reps weight then some (reps, weight) else none

/-- The Python loop `for idx in range(0, len(numbers), 2)` reading
`numbers[idx]` as weight and `numbers[idx+1]` as reps (the list has even
length at that point). -/
def pairUp : List ℚ → List (ℚ × ℚ)
  | w :: r :: rest => (w, r) :: pairUp rest
  | _ => []

/-- The bare-number fallback branch of `_parse_workout_entry`. -/
def fallbackPairs (sets : List Char) : List (Nat × ℚ) :=
  let numbers := (findNumbers sets).map ratOfNumToken
  if numbers.length < 2 then []
  else
    let evened := if numbers.length % 2 ≠ 0 then numbers.dropLast else numbers
    (pairUp evened).filterMap fun p =>
      let reps := pyInt p.2
      if pairInBounds reps p.1 then some (reps.toNat, p.1) else none

/-- Characters stripped from the ends of the workout label:
`.strip(" :-,")`. -/
def labelStripSet : List Char := [' ', ':', '-', ',']

/-- The workout-type label built from the text before the first digit:
`re.sub(r"\s+", " ", prefixText.strip(" :-,").lower())`. -/
def labelOf (pre : List Char) : List Char :=
  collapseWs ((stripChars labelStripSet pre).map pyLower)

/-- `GymSupervisorBot._parse_workout_entry`.  Weights are exact rationals,
reps are naturals (every accepted reps value is positive). -/
def parseWorkoutEntry (text : String) : String × List (Nat × ℚ) :=
  let clean := pyStrip text.toList
  if clean.isEmpty then ("", [])
  else
    match clean.findIdx? isPyDigit with
    | none => ("", [])
    | some i =>
      let wt := labelOf (clean.take i)
      if wt.isEmpty then ("", [])
      else
        let sets := clean.drop i
        let expl := findExplicit sets
        if !expl.isEmpty then (String.mk wt, explicitPairs expl)
        else (String.mk wt, fallbackPairs sets)

/-! ### The move taxonomy (`MOVE_BODY_AREA_SEED` and the `move_body_areas`
table of `db.py`) -/

def MOVE_BODY_AREA_SEED : List (String × String) := [
  ("bench press", "chest"),
  ("barbell bench press", "chest"),
  ("dumbbell bench press", "chest"),
  ("incline bench press", "chest"),
  ("decline bench press", "chest"),
  ("incline dumbbell press", "chest"),
  ("decline dumbbell press", "chest"),
  ("machine chest press", "chest"),
  ("chest press", "chest"),
  ("smith machine bench press", "chest"),
  ("push up", "chest"),
  ("pushup", "chest"),
  ("weighted push up", "chest"),
  ("chest dip", "chest"),
  ("dips", "chest"),
  ("cable fly", "chest"),
  ("cable crossover", "chest"),
  ("pec deck", "chest"),
  ("pec fly", "chest"),
  ("dumbbell fly", "chest"),
  ("svend press", "chest"),
  ("pull up", "back"),
  ("pullup", "back"),
  ("chin up", "back"),
  ("lat pulldown", "back"),
  ("wide grip lat pulldown", "back"),
  ("close grip lat pulldown", "back"),
  ("seated cable row", "back"),
  ("seated row", "back"),
  ("barbell row", "back"),
  ("bent over row", "back"),
  ("dumbbell row", "back"),
  ("single arm dumbbell row", "back"),
  ("pendlay row", "back"),
  ("t bar row", "back"),
  ("inverted row", "back"),
  ("chest supported row", "back"),
  ("face pull", "shoulders"),
  ("facepull", "shoulders"),
  ("straight arm pulldown", "back"),
  ("back extension", "back"),
  ("hyperextension", "back"),
  ("reverse hyper", "back"),
  ("good morning", "back"),
  ("rack pull", "back"),
  ("deadlift", "legs"),
  ("sumo deadlift", "back"),
  ("romanian deadlift", "back"),
  ("rdl", "back"),
  ("overhead press", "shoulders"),
  ("shoulder press", "shoulders"),
  ("barbell overhead press", "shoulders"),
  ("dumbbell shoulder press", "shoulders"),
  ("seated dumbbell press", "shoulders"),
  ("military press", "shoulders"),
  ("arnold press", "shoulders"),
  ("push press", "shoulders"),
  ("landmine press", "shoulders"),
  ("lateral raise", "shoulders"),
  ("side lateral raise", "shoulders"),
  ("front raise", "shoulders"),
  ("rear delt fly", "shoulders"),
  ("reverse fly", "shoulders"),
  ("upright row", "shoulders"),
  ("cable lateral raise", "shoulders"),
  ("shrug", "shoulders"),
  ("dumbbell shrug", "shoulders"),
  ("barbell shrug", "shoulders"),
  ("squat", "legs"),
  ("back squat", "legs"),
  ("front squat", "legs"),
  ("high bar squat", "legs"),
  ("low bar squat", "legs"),
  ("box squat", "legs"),
  ("pause squat", "legs"),
  ("goblet squat", "legs"),
  ("hack squat", "legs"),
  ("smith machine squat", "legs"),
  ("leg press", "legs"),
  ("leg extension", "legs"),
  ("leg curl", "legs"),
  ("seated leg curl", "legs"),
  ("lying leg curl", "legs"),
  ("nordic curl", "legs"),
  ("walking lunge", "legs"),
  ("lunge", "legs"),
  ("reverse lunge", "legs"),
  ("split squat", "legs"),
  ("bulgarian split squat", "legs"),
  ("step up", "legs"),
  ("pistol squat", "legs"),
  ("sissy squat", "legs"),
  ("calf raise", "legs"),
  ("standing calf raise", "legs"),
  ("seated calf raise", "legs"),
  ("donkey calf raise", "legs"),
  ("adductor machine", "legs"),
  ("abductor machine", "legs"),
  ("hip adduction", "legs"),
  ("hip abduction", "legs"),
  ("glute bridge", "legs"),
  ("hip thrust", "legs"),
  ("barbell curl", "arms"),
  ("dumbbell curl", "arms"),
  ("dumbell curl", "arms"),
  ("curl", "arms"),
  ("alternating dumbbell curl", "arms"),
  ("hammer curl", "arms"),
  ("preacher curl", "arms"),
  ("incline dumbbell curl", "arms"),
  ("concentration curl", "arms"),
  ("cable curl", "arms"),
  ("ez bar curl", "arms"),
  ("reverse curl", "arms"),
  ("tricep pushdown", "arms"),
  ("triceps pushdown", "arms"),
  ("pushdown", "arms"),
  ("rope pushdown", "arms"),
  ("overhead tricep extension", "arms"),
  ("overhead triceps extension", "arms"),
  ("skull crusher", "arms"),
  ("lying tricep extension", "arms"),
  ("close grip bench press", "arms"),
  ("close grip push up", "arms"),
  ("bench dip", "arms"),
  ("cable tricep extension", "arms"),
  ("tricep kickback", "arms"),
  ("triceps kickback", "arms"),
  ("wrist curl", "arms"),
  ("reverse wrist curl", "arms"),
  ("farmer carry", "arms"),
  ("plank", "core"),
  ("side plank", "core"),
  ("crunch", "core"),
  ("sit up", "core"),
  ("v up", "core"),
  ("dead bug", "core"),
  ("hollow hold", "core"),
  ("mountain climber", "core"),
  ("russian twist", "core"),
  ("hanging leg raise", "core"),
  ("leg raise", "core"),
  ("ab wheel", "core"),
  ("ab rollout", "core"),
  ("cable crunch", "core"),
  ("pallof press", "core"),
  ("wood chop", "core"),
  ("back plank", "core"),
  ("bird dog", "core"),
  ("toes to bar", "core"),
  ("clean", "full_body"),
  ("power clean", "full_body"),
  ("hang clean", "full_body"),
  ("snatch", "full_body"),
  ("power snatch", "full_body"),
  ("clean and jerk", "full_body"),
  ("thruster", "full_body"),
  ("burpee", "full_body"),
  ("man maker", "full_body"),
  ("kettlebell swing", "full_body"),
  ("turkish get up", "full_body"),
  ("wall ball", "full_body"),
  ("sled push", "full_body"),
  ("sled pull", "full_body"),
  ("bear crawl", "full_body"),
  ("battle rope", "full_body"),
  ("run", "cardio"),
  ("treadmill run", "cardio"),
  ("jog", "cardio"),
  ("sprint", "cardio"),
  ("bike", "cardio"),
  ("cycling", "cardio"),
  ("stationary bike", "cardio"),
  ("spin bike", "cardio"),
  ("row", "cardio"),
  ("rowing", "cardio"),
  ("erg row", "cardio"),
  ("jump rope", "cardio"),
  ("stairmaster", "cardio"),
  ("elliptical", "cardio"),
  ("ski erg", "cardio")
]

/-- The rows inserted by `_seed_move_body_areas`:
`(move_key, display_label, body_area)` after normalization, rows with an
empty key discarded. -/
def seedRows : List (String × String × String) :=
  ((MOVE_BODY_AREA_SEED.map fun p =>
      (normalizeWorkoutTypeKey p.1, normalizeWorkoutLabel p.1,
        normalizeWorkoutLabel p.2)).filter fun r => r.1 ≠ "")

/-- State of the `move_body_areas` table after seeding.  The insert uses
`ON CONFLICT(move_key) DO UPDATE`, so for a duplicated key the row inserted
last wins; looking through the reversed seed list finds exactly that row. -/
def findMove (key : String) : Option (String × String × String) :=
  seedRows.reverse.find? fun r => r.1 = key

/-- `GymDB._display_label_for_key`: the stored display label for a key, or
the key itself when the taxonomy has no row for it. -/
def displayLabelForKey (key : String) : String :=
  match findMove key with
  | some r => r.2.1
  | none => key

/-- `GymDB._lookup_body_area`. -/
def lookupBodyArea (workoutType : String) : String :=
  let key := normalizeWorkoutTypeKey workoutType
  if key = "" then "unmapped"
  else
    match findMove key with
    | some r => r.2.2
    | none => "unmapped"

/-! ### Timestamps

The code stores naive Pacific timestamps as ISO strings
(`isoformat(timespec="seconds")`) and compares them with SQL string
comparison; for this fixed format, lexicographic order coincides with
chronological order, so timestamps are modelled by a record ordered
lexicographically.  `day` counts days from a fixed Monday (so Python's
`date.weekday()` is `day.emod 7`), `minute` is the minute of the day. -/

structure DateTime where
  day : Int
  minute : Nat
deriving DecidableEq, Repr

def dtLt (a b : DateTime) : Prop :=
  a.day < b.day ∨ (a.day = b.day ∧ a.minute < b.minute)

def dtLe (a b : DateTime) : Prop :=
  a.day < b.day ∨ (a.day = b.day ∧ a.minute ≤ b.minute)

instance (a b : DateTime) : Decidable (dtLt a b) := by unfold dtLt; infer_instance

instance (a b : DateTime) : Decidable (dtLe a b) := by unfold dtLe; infer_instance

/-- `GymSupervisorBot._week_start`: midnight on Monday of the current week
(`now.date() - timedelta(days=now.weekday())` combined with `time.min`). -/
def weekStart (now : DateTime) : DateTime :=
  ⟨now.day - now.day.emod 7, 0⟩

/-- `GymSupervisorBot._week_start_date` (a date, kept as its day number). -/
def weekStartDay (now : DateTime) : Int :=
  now.day - now.day.emod 7

/-! ### Database state

Postgres tables become lists; `BIGSERIAL` ids become an explicit
`next_workout_id` counter.  The `weekly_nudges` rows are
`(week_start, milestone, sent_at)` with `UNIQUE(week_start, milestone)`. -/

structure Workout where
  id : Nat
  logged_at : DateTime
  sets : Nat
  note : String
deriving DecidableEq, Repr

structure WorkoutEntry where
  workout_id : Nat
  workout_type : String
  workout_display_name : String
  reps : Int
  weight : ℚ
  logged_at : DateTime
  source_text : String
deriving DecidableEq, Repr

structure Snooze where
  logged_at : DateTime
  reason : String
deriving DecidableEq, Repr

structure GymDB where
  workouts : List Workout
  entries : List WorkoutEntry
  snoozes : List Snooze
  weekly_nudges : List (Int × Nat × DateTime)
  next_workout_id : Nat
deriving DecidableEq, Repr

def emptyDB : GymDB := ⟨[], [], [], [], 1⟩

/-! ### `GymDB` operations -/

/-- The body of the normalization loop in `log_workout_with_entries`: skip
an entry whose normalized key is empty, otherwise canonicalize the key and
resolve the display label (`self._display_label_for_key(...) or
self._normalize_workout_label(...)`; Python `or` falls through on the empty
string). -/
def normalizeLogEntry (e : String × Int × ℚ) : Option (String × String × Int × ℚ) :=
  let workoutKey := normalizeWorkoutTypeKey e.1
  if workoutKey = "" then none
  else
    let display :=
      if displayLabelForKey workoutKey ≠ "" then displayLabelForKey workoutKey
      else normalizeWorkoutLabel e.1
    some (workoutKey, display, e.2.1, e.2.2)

/-- `GymDB.log_workout_with_entries`.  The Python function raises
`ValueError` on validation failure; because the enclosing `with`-connection
block rolls the transaction back when an exception escapes (and the first
check fires before any row is written), a failure leaves the database
unchanged — modelled by `Except.error`, which carries no new state.
`now` stands for `_now_pacific_naive()`. -/
def logWorkoutWithEntries (db : GymDB) (now : DateTime)
    (entries : List (String × Int × ℚ)) (note : String) :
    Except String (GymDB × Nat) :=
  if entries = [] then .error "entries must not be empty"
  else
    let normalized : List (String × String × Int × ℚ) :=
      entries.filterMap normalizeLogEntry
    if normalized = [] then .error "entries must include at least one valid workout type"
    else
      let wid := db.next_workout_id
      let newWorkout : Workout := ⟨wid, now, normalized.length, pyStripStr note⟩
      let newEntries : List WorkoutEntry :=
        normalized.map fun n =>
          ⟨wid, n.1, n.2.1, n.2.2.1, n.2.2.2, now, pyStripStr note⟩
      .ok ({ db with
              workouts := db.workouts ++ [newWorkout],
              entries := db.entries ++ newEntries,
              next_workout_id := wid + 1 }, wid)

/-- `GymDB.log_snooze`. -/
def logSnooze (db : GymDB) (now : DateTime) (reason : String) : GymDB :=
  { db with snoozes := db.snoozes ++ [⟨now, pyStripStr reason⟩] }

/-- `GymDB.count_workouts_between`: workouts with
`start <= logged_at < stop`. -/
def countWorkoutsBetween (db : GymDB) (start stop : DateTime) : Nat :=
  (db.workouts.filter fun w =>
    decide (dtLe start w.logged_at ∧ dtLt w.logged_at stop)).length

/-- The workout entries in a `[start, stop)` window. -/
def entriesBetween (db : GymDB) (start stop : DateTime) : List WorkoutEntry :=
  db.entries.filter fun e =>
    decide (dtLe start e.logged_at ∧ dtLt e.logged_at stop)

/-- `GymDB.weekly_nudge_sent`. -/
def weeklyNudgeSent (db : GymDB) (ws : Int) (milestone : Nat) : Bool :=
  db.weekly_nudges.any fun r => r.1 = ws && r.2.1 = milestone

/-- `GymDB.mark_weekly_nudge_sent` (`ON CONFLICT (week_start, milestone)
DO NOTHING`). -/
def markWeeklyNudgeSent (db : GymDB) (ws : Int) (milestone : Nat)
    (now : DateTime) : GymDB :=
  if weeklyNudgeSent db ws milestone then db
  else { db with weekly_nudges := db.weekly_nudges ++ [(ws, milestone, now)] }

/-! ### Aggregation queries

Python dicts keyed by strings become association lists built in insertion
order (`dictSetNat` overwrites an existing key, as a Python dict assignment
does; `dictAddNat` models `totals.get(area, 0) + count`).  The unspecified
row order of SQL `GROUP BY` is modelled as first-appearance order; the
results are explicitly re-sorted afterwards by the Python code, so this
choice is observable only through dict-key collisions. -/

def dictSetNat (d : List (String × Nat)) (k : String) (v : Nat) :
    List (String × Nat) :=
  if d.any fun p => p.1 = k then d.map fun p => if p.1 = k then (k, v) else p
  else d ++ [(k, v)]

def dictAddNat (d : List (String × Nat)) (k : String) (v : Nat) :
    List (String × Nat) :=
  match d.find? fun p => p.1 = k with
  | some p => dictSetNat d k (p.2 + v)
  | none => d ++ [(k, v)]

/-- Stable insertion sort (models Python's stable `sorted`). -/
def insertSortedBy (le : α → α → Bool) (a : α) : List α → List α
  | [] => [a]
  | b :: l => if le a b then a :: b :: l else b :: insertSortedBy le a l

def sortBy (le : α → α → Bool) (l : List α) : List α :=
  l.foldr (insertSortedBy le) []

/-- The sort key used by both summaries:
`sorted(items, key=lambda item: (-item[1], item[0]))`. -/
def summaryLe (a b : String × Nat) : Bool :=
  b.2 < a.2 || (a.2 = b.2 && decide (a.1 ≤ b.1))

/-- SQL `MAX` over the `TEXT` column of a group (lexicographic). -/
def sqlMaxString (l : List String) : String := l.foldl max ""

/-- The distinct workout types of a list of entries, in first-appearance
order (the `GROUP BY workout_type` rows). -/
def groupTypes (l : List WorkoutEntry) : List String :=
  (l.map fun e => e.workout_type).dedup

/-- `GymDB.summarize_sets_by_workout_type_between`. -/
def summarizeSetsByWorkoutTypeBetween (db : GymDB) (start stop : DateTime) :
    List (String × Nat) :=
  let wentries := entriesBetween db start stop
  let rows : List (String × String × Nat) :=
    (groupTypes wentries).map fun t =>
      let group := wentries.filter fun e => e.workout_type = t
      (t, sqlMaxString (group.map fun e => e.workout_display_name), group.length)
  let summary :=
    rows.foldl
      (fun d r =>
        if pyStripStr r.1 ≠ "" then
          dictSetNat d (if pyStripStr r.2.1 ≠ "" then pyStripStr r.2.1 else pyStripStr r.1)
            r.2.2
        else d)
      ([] : List (String × Nat))
  sortBy summaryLe summary

/-- `GymDB.summarize_sets_by_body_area_between`. -/
def summarizeSetsByBodyAreaBetween (db : GymDB) (start stop : DateTime) :
    List (String × Nat) :=
  let wentries := entriesBetween db start stop
  let rows : List (String × Nat) :=
    (groupTypes wentries).map fun t =>
      (t, (wentries.filter fun e => e.workout_type = t).length)
  let totals :=
    rows.foldl (fun d r => dictAddNat d (lookupBodyArea r.1) r.2)
      ([] : List (String × Nat))
  sortBy summaryLe totals

/-- `GymDB.summarize_sets_by_body_area_for_workout`. -/
def summarizeSetsByBodyAreaForWorkout (db : GymDB) (workoutId : Nat) :
    List (String × Nat) :=
  let wentries := db.entries.filter fun e => e.workout_id = workoutId
  let rows : List (String × Nat) :=
    (groupTypes wentries).map fun t =>
      (t, (wentries.filter fun e => e.workout_type = t).length)
  let totals :=
    rows.foldl (fun d r => dictAddNat d (lookupBodyArea r.1) r.2)
      ([] : List (String × Nat))
  sortBy summaryLe totals

/-- The values a `period_workout_summary` dict can hold. -/
inductive SummaryVal where
  | nat (n : Nat)
  | rat (q : ℚ)
  | table (m : List (String × Nat))
deriving DecidableEq, Repr

/-- Dict lookup; `none` is a Python `KeyError`. -/
def dictGet (d : List (String × SummaryVal)) (k : String) : Option SummaryVal :=
  (d.find? fun p => p.1 = k).map fun p => p.2

/-- `GymDB.period_workout_summary`: the dict literal returned by the code,
with exactly the keys `workouts`, `total_sets`, `by_workout_type` and
`by_body_area`. -/
def periodWorkoutSummary (db : GymDB) (start stop : DateTime) :
    List (String × SummaryVal) :=
  let byWorkoutType := summarizeSetsByWorkoutTypeBetween db start stop
  let byBodyArea := summarizeSetsByBodyAreaBetween db start stop
  [("workouts", .nat (countWorkoutsBetween db start stop)),
   ("total_sets", .nat (byWorkoutType.map fun p => p.2).sum),
   ("by_workout_type", .table byWorkoutType),
   ("by_body_area", .table byBodyArea)]

/-- `GymDB.stats_summary`.  Averages use the `if workout_count` guard of the
code: `0.0` when there are no workouts, otherwise exact division. -/
structure StatsSummary where
  workout_count : Nat
  snooze_count : Nat
  total_sets : Nat
  avg_sets : ℚ
  total_volume : ℚ
  avg_volume : ℚ
deriving DecidableEq, Repr

def statsSummary (db : GymDB) : StatsSummary :=
  let workoutCount := db.workouts.length
  let totalSets := (db.workouts.map fun w => w.sets).sum
  let totalVolume := (db.entries.map fun e => (e.reps : ℚ) * e.weight).sum
  { workout_count := workoutCount,
    snooze_count := db.snoozes.length,
    total_sets := totalSets,
    avg_sets := if workoutCount = 0 then 0 else (totalSets : ℚ) / workoutCount,
    total_volume := totalVolume,
    avg_volume := if workoutCount = 0 then 0 else totalVolume / workoutCount }

/-! ### Bot-side period summaries (`GymSupervisorBot`) -/

/-- `GymSupervisorBot._summary_window`; `none` is the `ValueError` raised for
an unknown period.  `now - timedelta(days=n)` keeps the time of day. -/
def summaryWindow (now : DateTime) (period : String) :
    Option (String × DateTime × DateTime) :=
  let normalized := pyLowerStr (pyStripStr period)
  if normalized = "week" then some ("past week", ⟨now.day - 7, now.minute⟩, now)
  else if normalized = "month" then some ("past month", ⟨now.day - 30, now.minute⟩, now)
  else if normalized = "quarter" then some ("past quarter", ⟨now.day - 90, now.minute⟩, now)
  else none

/-- `GymSupervisorBot._format_breakdown_lines`. -/
def formatBreakdownLines (title : String) (values : List (String × Nat)) :
    List String :=
  if values = [] then [title, "- none"]
  else title :: values.map fun p => "- " ++ p.1 ++ ": " ++ toString p.2

/-- Rendering of a rational with Python's `f"{x:.1f}"`.  Only the cases that
`_build_period_summary_lines` could reach matter; that point is in fact never
reached (see `C1`), so ties-to-even rounding is simplified to floor of the
tenths. -/
def formatFixed1 (q : ℚ) : String :=
  let tenths : Int := ⌊q * 10⌋
  toString (tenths / 10) ++ "." ++ toString (tenths.emod 10).toNat

/-- A date `day.isoformat()` stand-in: the day number rendered as text. -/
def formatDay (d : Int) : String := toString d

/-- `GymSupervisorBot._build_period_summary_lines`.  The Python code reads
`summary["skips"]` and `summary["total_volume"]`; a missing key raises
`KeyError`, modelled by `none`.  Lookups happen in the order of the Python
assignments. -/
def buildPeriodSummaryLines (db : GymDB) (now : DateTime) (period : String) :
    Option (List String) :=
  match summaryWindow now period with
  | none => none
  | some (periodLabel, start, stop) =>
    let summary := periodWorkoutSummary db start stop
    match dictGet summary "workouts" with
    | some (.nat workouts) =>
      match dictGet summary "skips" with
      | some (.nat skips) =>
        match dictGet summary "total_sets" with
        | some (.nat totalSets) =>
          match dictGet summary "total_volume" with
          | some (.rat totalVolume) =>
            match dictGet summary "by_workout_type", dictGet summary "by_body_area" with
            | some (.table byWorkoutType), some (.table byBodyArea) =>
              some ([
                "Workout summary (" ++ periodLabel ++ ")",
                "Window: " ++ formatDay start.day ++ " to " ++ formatDay stop.day,
                "Workouts: " ++ toString workouts,
                "Skips (snoozes): " ++ toString skips,
                "Total sets: " ++ toString totalSets,
                "Total volume: " ++ formatFixed1 totalVolume,
                ""]
                ++ formatBreakdownLines "By workout type:" byWorkoutType
                ++ [""]
                ++ formatBreakdownLines "By body area:" byBodyArea)
            | _, _ => none
          | _ => none
        | _ => none
      | _ => none
    | _ => none

/-! ### Weekly deadline nudges (`GymSupervisorBot`) -/

structure WeeklyMilestone where
  milestone : Nat
  required_workouts : Nat
  weekday : Nat
  hour : Nat
  minute : Nat
  label : String
deriving DecidableEq, Repr

def WEEKLY_MILESTONES : List WeeklyMilestone :=
  [⟨1, 1, 1, 20, 0, "Tuesday 8:00 PM"⟩,
   ⟨2, 2, 3, 20, 0, "Thursday 8:00 PM"⟩,
   ⟨3, 3, 6, 16, 0, "Sunday 4:00 PM"⟩]

/-- The deadline of a milestone in the week of `now`:
`week_start + timedelta(days=m.weekday)` with `hour`/`minute` replaced. -/
def deadlineFor (now : DateTime) (m : WeeklyMilestone) : DateTime :=
  ⟨(weekStart now).day + m.weekday, m.hour * 60 + m.minute⟩

/-- One iteration of the milestone loop in
`send_weekly_deadline_nudges_now`: skip if already marked for this week, if
the deadline has not passed, or if enough workouts were completed before the
deadline; otherwise send (append the `(week_start, milestone)` pair to the
sent list) and mark. -/
def nudgeLoopStep (now : DateTime) (acc : List (Int × Nat) × GymDB)
    (m : WeeklyMilestone) : List (Int × Nat) × GymDB :=
  let ws := weekStart now
  let wsd := weekStartDay now
  if weeklyNudgeSent acc.2 wsd m.milestone then acc
  else
    let deadline := deadlineFor now m
    if dtLt now deadline then acc
    else if m.required_workouts ≤ countWorkoutsBetween acc.2 ws deadline then acc
    else (acc.1 ++ [(wsd, m.milestone)], markWeeklyNudgeSent acc.2 wsd m.milestone now)

/-- `GymSupervisorBot.send_weekly_deadline_nudges_now`: the pairs for which a
nudge message is sent during this evaluation, and the database afterwards. -/
def nudgeStep (db : GymDB) (now : DateTime) : List (Int × Nat) × GymDB :=
  WEEKLY_MILESTONES.foldl (nudgeLoopStep now) ([], db)

/-- A sequence of evaluation runs.  Between runs the workouts table may
change arbitrarily (the user logs workouts), and a process restart keeps the
persisted `weekly_nudges` table: both are captured by supplying, for each
run, its evaluation time and the workouts table it sees, while the nudge
marks thread through.  Returns the sent-pairs list of every run and the final
database. -/
def runSeq (db : GymDB) : List (DateTime × List Workout) →
    List (List (Int × Nat)) × GymDB
  | [] => ([], db)
  | (now, ws) :: rest =>
    let step := nudgeStep { db with workouts := ws } now
    let tail := runSeq step.2 rest
    (step.1 :: tail.1, tail.2)

/-- Number of nudge-table rows for a given `(week_start, milestone)` pair. -/
def nudgeRecordCount (db : GymDB) (p : Int × Nat) : Nat :=
  (db.weekly_nudges.filter fun r => r.1 = p.1 && r.2.1 = p.2).length

/-- Total number of times the pair `p` is sent across a sequence of runs. -/
def totalSends (p : Int × Nat) (sents : List (List (Int × Nat))) : Nat :=
  (sents.map fun s => s.count p).sum

/-! ### Workout drafts (`GymSupervisorBot`) -/

structure Batch where
  text : String
  workout_type : String
  pairs : List (Nat × ℚ)
deriving DecidableEq, Repr

/-- The flattening loop of `_finalize_workout_draft`: one
`(workout_type, reps, weight)` triple per pair that passes
`workout_type and reps > 0 and weight > 0`. -/
def flattenDraft (batches : List Batch) : List (String × Int × ℚ) :=
  batches.flatMap fun b =>
    let workoutType := pyStripStr b.workout_type
    b.pairs.filterMap fun p =>
      if workoutType ≠ "" && decide (0 < p.1) && decide (0 < p.2) then
        some (workoutType, (p.1 : Int), p.2)
      else none

/-- The note assembled by `_finalize_workout_draft`:
`" | ".join(part for part in note_parts if part)`. -/
def draftNote (batches : List Batch) : String :=
  String.intercalate " | "
    ((batches.map fun b => pyStripStr b.text).filter fun s => s ≠ "")

/-- `GymSupervisorBot._finalize_workout_draft`.  Result: the created workout
id (`none` on failure), the draft afterwards, and the database afterwards.
On the empty-flatten failure the code returns before touching the draft or
the database; on a `log_workout_with_entries` error the exception propagates
before `_reset_workout_draft`, so draft and database are likewise
unchanged. -/
def finalizeWorkoutDraft (draft : List Batch) (db : GymDB) (now : DateTime) :
    Option Nat × List Batch × GymDB :=
  let entries := flattenDraft draft
  if entries = [] then (none, draft, db)
  else
    match logWorkoutWithEntries db now entries (draftNote draft) with
    | .error _ => (none, draft, db)
    | .ok (db2, wid) => (some wid, [], db2)

/-! ### Spec-side definitions

These follow the specification's wording (not the code) and are compared with
the embedded code in the refinement theorems below. -/

/-- Elements of a list at even positions. -/
def evens : List ℚ → List ℚ
  | [] => []
  | [a] => [a]
  | a :: _ :: l => a :: evens l

/-- Elements of a list at odd positions. -/
def odds : List ℚ → List ℚ
  | [] => []
  | [_] => []
  | _ :: b :: l => b :: odds l

/-- The spec's description of the bare-number fallback: "extract all numeric
tokens in order, treat them as alternating (weight, reps) pairs; if an odd
count, drop the trailing unpaired number; apply the same reps/weight bounds
filter per pair".  Zipping the even-position tokens with the odd-position
tokens performs the alternating pairing and drops a trailing unpaired
number. -/
def specAlternatingPairs (numbers : List ℚ) : List (Nat × ℚ) :=
  ((evens numbers).zip (odds numbers)).filterMap fun p =>
    let reps := pyInt p.2
    if pairInBounds reps p.1 then some (reps.toNat, p.1) else none

/-- The candidate `(reps, weight)` pairs considered by
`_parse_workout_entry` before the bounds filter, along the path the parser
actually takes (the explicit matches if any, otherwise the alternating
bare-number pairs).  Used to state that the parser filters candidates and
never alters them. -/
def candidatePairs (text : String) : List (Nat × ℚ) :=
  let clean := pyStrip text.toList
  if clean.isEmpty then []
  else
    match clean.findIdx? isPyDigit with
    | none => []
    | some i =>
      if (labelOf (clean.take i)).isEmpty then []
      else
        let sets := clean.drop i
        let expl := findExplicit sets
        if !expl.isEmpty then expl.map fun m => (digitsToNat m.2, ratOfNumToken m.1)
        else
          let numbers := (findNumbers sets).map ratOfNumToken
          if numbers.length < 2 then []
          else
            let evened := if numbers.length % 2 ≠ 0 then numbers.dropLast else numbers
            (pairUp evened).map fun p => ((pyInt p.2).toNat, p.1)

/-! ### Parser lemmas -/

/-- Truncating reps to `Nat` does not change the bounds check: a nonpositive
reps value fails `1 ≤ reps` either way, a positive one is unchanged. -/
theorem pairInBounds_toNat (x : Int) (w : ℚ) :
    pairInBounds (x.toNat : Int) w = pairInBounds x w := by
  unfold pairInBounds
  apply decide_eq_decide.mpr
  constructor
  · rintro ⟨h1, h2, hw⟩
    exact ⟨by omega, by omega, hw⟩
  · rintro ⟨h1, h2, hw⟩
    exact ⟨by omega, by omega, hw⟩

/-- The explicit-match loop is the bounds filter applied to the converted
matches. -/
theorem explicitPairs_eq_filter (ms : List (List Char × List Char)) :
    explicitPairs ms =
      (ms.map fun m => (digitsToNat m.2, ratOfNumToken m.1)).filter
        fun p => pairInBounds (p.1 : Int) p.2 := by
  induction ms with
  | nil => rfl
  | cons m ms ih =>
    simp only [explicitPairs, List.filterMap_cons, List.map_cons, List.filter_cons] at *
    by_cases h : pairInBounds (digitsToNat m.2) (ratOfNumToken m.1)
    · simp [h, ih]
    · simp [h, ih]

/-- The fallback loop is the bounds filter applied to the truncated
alternating pairs. -/
theorem fallbackLoop_eq_filter (l : List (ℚ × ℚ)) :
    (l.filterMap fun p =>
        let reps := pyInt p.2
        if pairInBounds reps p.1 then some (reps.toNat, p.1) else none) =
      (l.map fun p => ((pyInt p.2).toNat, p.1)).filter
        fun p => pairInBounds (p.1 : Int) p.2 := by
  induction l with
  | nil => rfl
  | cons p l ih =>
    simp only [List.filterMap_cons, List.map_cons, List.filter_cons]
    rw [pairInBounds_toNat]
    by_cases h : pairInBounds (pyInt p.2) p.1
    · simp [h, ih]
    · simp [h, ih]

/-- The Python pairing loop equals zipping even positions with odd
positions. -/
theorem pairUp_eq_zip : ∀ l : List ℚ, pairUp l = (evens l).zip (odds l)
  | [] => rfl
  | [_] => rfl
  | a :: b :: l => by
    show (a, b) :: pairUp l = (a :: evens l).zip (b :: odds l)
    rw [pairUp_eq_zip l]
    rfl

/-- Dropping the trailing unpaired number of an odd-length list does not
change the pairing. -/
theorem pairUp_dropLast_odd : ∀ l : List ℚ, l.length % 2 = 1 →
    pairUp l.dropLast = pairUp l
  | [], h => by simp at h
  | [_], _ => rfl
  | [_, _], h => by simp at h
  | a :: b :: c :: l, h => by
    show pairUp (a :: b :: (c :: l).dropLast) = (a, b) :: pairUp (c :: l)
    show (a, b) :: pairUp (c :: l).dropLast = (a, b) :: pairUp (c :: l)
    rw [pairUp_dropLast_odd (c :: l)
      (by simp only [List.length_cons] at h ⊢; omega)]

/-- The fallback branch of the parser computes exactly the spec's alternating
pairing of the numeric tokens. -/
theorem fallbackPairs_eq_spec (sets : List Char) :
    fallbackPairs sets =
      specAlternatingPairs ((findNumbers sets).map ratOfNumToken) := by
  unfold fallbackPairs specAlternatingPairs
  generalize (findNumbers sets).map ratOfNumToken = numbers
  rcases numbers with _ | ⟨a, _ | ⟨b, l⟩⟩
  · rfl
  · rfl
  · show (if (b :: l).length + 1 < 2 then _ else _) = _
    split_ifs with h2 hodd
    · exact absurd h2 (by simp)
    · dsimp only
      rw [pairUp_dropLast_odd _ (by simp only [List.length_cons] at hodd ⊢; omega),
        pairUp_eq_zip]
    · dsimp only
      rw [pairUp_eq_zip]

/-- The parser output is the bounds filter applied to the candidate pairs of
the path taken. -/
theorem parse_eq_candidates_filter (text : String) :
    (parseWorkoutEntry text).2 =
      (candidatePairs text).filter fun p => pairInBounds (p.1 : Int) p.2 := by
  by_cases h0 : pyStrip text.data = []
  · simp [parseWorkoutEntry, candidatePairs, h0]
  · rcases hi : List.findIdx? isPyDigit (pyStrip text.data) with _ | i
    · simp [parseWorkoutEntry, candidatePairs, h0, hi]
    · by_cases hw : labelOf (List.take i (pyStrip text.data)) = []
      · simp [parseWorkoutEntry, candidatePairs, h0, hi, hw]
      · by_cases he : findExplicit (List.drop i (pyStrip text.data)) = []
        · -- fallback branch
          simp [parseWorkoutEntry, candidatePairs, h0, hi, hw, he, fallbackPairs,
            fallbackLoop_eq_filter, apply_ite (List.filter fun p : Nat × ℚ =>
              pairInBounds (p.1 : Int) p.2)]
        · -- explicit branch
          simp [parseWorkoutEntry, candidatePairs, h0, hi, hw, he,
            explicitPairs_eq_filter]

/-! ### Claim theorems: the workout-entry parser -/

/-- C6: for every input text, every `(reps, weight)` pair in the parser's
output satisfies `1 ≤ reps ≤ 100` and `0 < weight ≤ 2000` strictly, and the
output is exactly the candidate pairs passing the bounds filter — a candidate
violating the bounds is dropped, never clamped into range, on both the
explicit-pattern path and the bare-number fallback path (both paths are
inside `candidatePairs`). -/
theorem C6_parser_bounds (text : String) :
    ((parseWorkoutEntry text).2 =
      (candidatePairs text).filter fun p => pairInBounds (p.1 : Int) p.2) ∧
    ∀ p ∈ (parseWorkoutEntry text).2,
      1 ≤ p.1 ∧ p.1 ≤ 100 ∧ 0 < p.2 ∧ p.2 ≤ 2000 := by
  refine ⟨parse_eq_candidates_filter text, fun p hp => ?_⟩
  rw [parse_eq_candidates_filter text] at hp
  have hcond := List.of_mem_filter hp
  have h := of_decide_eq_true hcond
  exact ⟨by exact_mod_cast h.1, by exact_mod_cast h.2.1, h.2.2.1, h.2.2.2⟩

/-- Witness for C6 at the concrete input `"bench 20x8"`. -/
theorem C6_parser_bounds_witness :
    (8, (20 : ℚ)) ∈ (parseWorkoutEntry "bench 20x8").2 ∧
      1 ≤ 8 ∧ 8 ≤ 100 ∧ (0 : ℚ) < 20 ∧ (20 : ℚ) ≤ 2000 :=
  ⟨by decide, (C6_parser_bounds "bench 20x8").2 (8, 20) (by decide)⟩

/-- C7: when the text after the first digit contains no explicit
weight-x-reps match, the parser returns exactly the spec's alternating
pairing of the numeric tokens (in order, as (weight, reps), the trailing
unpaired token dropped, bounds filter applied). -/
theorem C7_fallback_alternating (text : String) (i : Nat)
    (hidx : (pyStrip text.toList).findIdx? isPyDigit = some i)
    (hlab : labelOf ((pyStrip text.toList).take i) ≠ [])
    (hexp : findExplicit ((pyStrip text.toList).drop i) = []) :
    (parseWorkoutEntry text).2 =
      specAlternatingPairs
        ((findNumbers ((pyStrip text.toList).drop i)).map ratOfNumToken) := by
  have h0 : pyStrip text.toList ≠ [] := by
    intro h
    rw [h] at hidx
    simp at hidx
  simp only [String.toList] at h0 hidx hlab hexp
  simp [parseWorkoutEntry, h0, hidx, hlab, hexp, fallbackPairs_eq_spec]

/-- Witness for C7 at the concrete input `"bench 20 8, 30 8"`: the fallback
path yields `(reps 8, weight 20)` and `(reps 8, weight 30)`. -/
theorem C7_fallback_alternating_witness :
    (pyStrip "bench 20 8, 30 8".toList).findIdx? isPyDigit = some 6 ∧
    findExplicit ((pyStrip "bench 20 8, 30 8".toList).drop 6) = [] ∧
    (parseWorkoutEntry "bench 20 8, 30 8").2 =
      specAlternatingPairs
        ((findNumbers ((pyStrip "bench 20 8, 30 8".toList).drop 6)).map ratOfNumToken) ∧
    parseWorkoutEntry "bench 20 8, 30 8" = ("bench", [(8, 20), (8, 30)]) :=
  ⟨by decide, by decide,
    C7_fallback_alternating "bench 20 8, 30 8" 6 (by decide) (by decide) (by decide),
    by decide⟩

/-- C10: when the explicit pattern matches at least once but every match
fails the bounds filter, the parser returns the workout-type label with an
empty pair list; the bare-number fallback is never consulted (the result is
computed from the explicit matches alone). -/
theorem C10_explicit_path_no_fallback (text : String) (i : Nat)
    (hidx : (pyStrip text.toList).findIdx? isPyDigit = some i)
    (hlab : labelOf ((pyStrip text.toList).take i) ≠ [])
    (hexp : findExplicit ((pyStrip text.toList).drop i) ≠ [])
    (hall : ∀ m ∈ findExplicit ((pyStrip text.toList).drop i),
      pairInBounds (digitsToNat m.2) (ratOfNumToken m.1) = false) :
    parseWorkoutEntry text =
      (String.mk (labelOf ((pyStrip text.toList).take i)), []) := by
  have h0 : pyStrip text.toList ≠ [] := by
    intro h
    rw [h] at hidx
    simp at hidx
  have hpairs : explicitPairs (findExplicit ((pyStrip text.toList).drop i)) = [] := by
    apply List.filterMap_eq_nil_iff.mpr
    intro m hm
    simp only [hall m hm, if_false, Bool.false_eq_true]
  simp only [String.toList] at h0 hidx hlab hexp hpairs
  simp [parseWorkoutEntry, h0, hidx, hlab, hexp, hpairs]

/-- Witness for C10 at the concrete input `"bench 3000x5 20 8"`: the single
explicit match `3000x5` is out of bounds, so the result is `("bench", [])`,
although the fallback pairing of the same tail would have produced the
in-bounds pair `(reps 8, weight 20)`. -/
theorem C10_explicit_path_no_fallback_witness :
    findExplicit ((pyStrip "bench 3000x5 20 8".toList).drop 6) ≠ [] ∧
    parseWorkoutEntry "bench 3000x5 20 8" = ("bench", []) ∧
    fallbackPairs ((pyStrip "bench 3000x5 20 8".toList).drop 6) = [(8, 20)] :=
  ⟨by decide,
    C10_explicit_path_no_fallback "bench 3000x5 20 8" 6 (by decide) (by decide)
      (by decide) (by decide),
    by decide⟩

/-! ### Claim theorems: logging and statistics -/

/-- An entry is skipped by the normalization loop exactly when its normalized
key is empty. -/
theorem normalizeLogEntry_eq_none (e : String × Int × ℚ) :
    normalizeLogEntry e = none ↔ normalizeWorkoutTypeKey e.1 = "" := by
  unfold normalizeLogEntry
  dsimp only
  split_ifs with h <;> simp [h]

/-- The normalization loop keeps exactly the entries with a nonempty
normalized key. -/
theorem length_filterMap_normalizeLogEntry (l : List (String × Int × ℚ)) :
    (l.filterMap normalizeLogEntry).length =
      (l.filter fun e => normalizeWorkoutTypeKey e.1 ≠ "").length := by
  induction l with
  | nil => rfl
  | cons e l ih =>
    rw [List.filterMap_cons, List.filter_cons]
    by_cases h : normalizeWorkoutTypeKey e.1 = ""
    · rw [(normalizeLogEntry_eq_none e).mpr h]
      simp [h, ih]
    · have : normalizeLogEntry e ≠ none := fun hc => h ((normalizeLogEntry_eq_none e).mp hc)
      rcases hne : normalizeLogEntry e with _ | v
      · exact absurd hne this
      · simp [h, ih]

/-- C2: `log_workout_with_entries` is atomic and validated.  If the entry
sequence is empty or every entry's normalized workout-type key is empty, it
fails with an error (and, the error being raised before/while the
transaction is open, no `Workout` or `WorkoutEntry` row is created).
Otherwise it creates exactly one new `Workout` row whose `sets` field is the
number of valid entries, one `WorkoutEntry` row per valid entry, and returns
the new workout id. -/
theorem C2_log_workout_atomic (db : GymDB) (now : DateTime)
    (entries : List (String × Int × ℚ)) (note : String) :
    ((entries = [] ∨ ∀ e ∈ entries, normalizeWorkoutTypeKey e.1 = "") →
      ∃ msg, logWorkoutWithEntries db now entries note = .error msg) ∧
    (entries ≠ [] → (∃ e ∈ entries, normalizeWorkoutTypeKey e.1 ≠ "") →
      ∃ db2,
        logWorkoutWithEntries db now entries note = .ok (db2, db.next_workout_id) ∧
        db2.workouts = db.workouts ++
          [⟨db.next_workout_id, now,
            (entries.filter fun e => normalizeWorkoutTypeKey e.1 ≠ "").length,
            pyStripStr note⟩] ∧
        db2.entries.length = db.entries.length +
          (entries.filter fun e => normalizeWorkoutTypeKey e.1 ≠ "").length ∧
        db2.snoozes = db.snoozes ∧
        db2.weekly_nudges = db.weekly_nudges) := by
  constructor
  · rintro (rfl | hall)
    · exact ⟨"entries must not be empty", rfl⟩
    · by_cases hnil : entries = []
      · subst hnil
        exact ⟨"entries must not be empty", rfl⟩
      · have hnorm : entries.filterMap normalizeLogEntry = [] :=
          List.filterMap_eq_nil_iff.mpr fun e he =>
            (normalizeLogEntry_eq_none e).mpr (hall e he)
        exact ⟨"entries must include at least one valid workout type",
          by simp [logWorkoutWithEntries, hnil, hnorm]⟩
  · intro hnil hex
    have hnorm : entries.filterMap normalizeLogEntry ≠ [] := by
      obtain ⟨e, he, hne⟩ := hex
      intro hcontra
      exact hne ((normalizeLogEntry_eq_none e).mp
        (List.filterMap_eq_nil_iff.mp hcontra e he))
    refine ⟨{ db with
        workouts := db.workouts ++
          [⟨db.next_workout_id, now, (entries.filterMap normalizeLogEntry).length,
            pyStripStr note⟩],
        entries := db.entries ++ (entries.filterMap normalizeLogEntry).map fun n =>
          ⟨db.next_workout_id, n.1, n.2.1, n.2.2.1, n.2.2.2, now, pyStripStr note⟩,
        next_workout_id := db.next_workout_id + 1 }, ?_, ?_, ?_, rfl, rfl⟩
    · simp [logWorkoutWithEntries, hnil, hnorm]
    · simp [length_filterMap_normalizeLogEntry]
    · simp [length_filterMap_normalizeLogEntry]

/-- Witness for C2: logging one valid entry on the empty database succeeds
with workout id 1; logging an empty list and logging only empty-keyed
entries both fail. -/
theorem C2_log_workout_atomic_witness :
    (∃ msg, logWorkoutWithEntries emptyDB ⟨0, 0⟩ [] "" = .error msg) ∧
    (∃ msg, logWorkoutWithEntries emptyDB ⟨0, 0⟩ [("!!!", 5, 100)] "" = .error msg) ∧
    (∃ db2,
      logWorkoutWithEntries emptyDB ⟨0, 0⟩ [("bench press", 8, 20)] "" =
        .ok (db2, emptyDB.next_workout_id) ∧
      db2.workouts = emptyDB.workouts ++
        [⟨emptyDB.next_workout_id, ⟨0, 0⟩,
          (([("bench press", 8, 20)] : List (String × Int × ℚ)).filter
            fun e => normalizeWorkoutTypeKey e.1 ≠ "").length,
          pyStripStr ""⟩] ∧
      db2.entries.length = emptyDB.entries.length +
        (([("bench press", 8, 20)] : List (String × Int × ℚ)).filter
          fun e => normalizeWorkoutTypeKey e.1 ≠ "").length ∧
      db2.snoozes = emptyDB.snoozes ∧
      db2.weekly_nudges = emptyDB.weekly_nudges) :=
  ⟨(C2_log_workout_atomic emptyDB ⟨0, 0⟩ [] "").1 (Or.inl rfl),
   (C2_log_workout_atomic emptyDB ⟨0, 0⟩ [("!!!", 5, 100)] "").1
     (Or.inr (by decide)),
   (C2_log_workout_atomic emptyDB ⟨0, 0⟩ [("bench press", 8, 20)] "").2
     (by decide) ⟨("bench press", 8, 20), by decide, by decide⟩⟩

/-- C9: `stats_summary` on a database with zero workouts (and hence, by the
foreign key from entries to workouts, zero entries) returns zero for the
workout count, total sets, total volume and both averages — `0`, not a
division-by-zero error — while the snooze count is the number of snoozes. -/
theorem C9_stats_summary_empty (db : GymDB)
    (hw : db.workouts = []) (he : db.entries = []) :
    statsSummary db = ⟨0, db.snoozes.length, 0, 0, 0, 0⟩ := by
  simp [statsSummary, hw, he]

/-- Witness for C9 on the empty database. -/
theorem C9_stats_summary_empty_witness :
    statsSummary emptyDB = ⟨0, emptyDB.snoozes.length, 0, 0, 0, 0⟩ :=
  C9_stats_summary_empty emptyDB rfl rfl

/-- C8: finalizing a draft whose flattened entry list is empty — every batch
has an empty (stripped) workout type or only pairs with zero reps or
nonpositive weight — fails, creates no workout (the database is unchanged),
and leaves the draft's batches unchanged, so more entries can be added and
finalize retried. -/
theorem C8_finalize_empty_draft (draft : List Batch) (db : GymDB) (now : DateTime)
    (h : ∀ b ∈ draft, pyStripStr b.workout_type = "" ∨
      ∀ p ∈ b.pairs, p.1 = 0 ∨ p.2 ≤ 0) :
    finalizeWorkoutDraft draft db now = (none, draft, db) := by
  have hflat : flattenDraft draft = [] := by
    unfold flattenDraft
    induction draft with
    | nil => rfl
    | cons b bs ih =>
      rw [List.flatMap_cons]
      have hb : (b.pairs.filterMap fun p =>
          if pyStripStr b.workout_type ≠ "" && decide (0 < p.1) && decide (0 < p.2) then
            some (pyStripStr b.workout_type, (p.1 : Int), p.2)
          else none) = [] := by
        apply List.filterMap_eq_nil_iff.mpr
        intro p hp
        rcases h b (List.mem_cons_self b bs) with hty | hpz
        · simp [hty]
        · rcases hpz p hp with h1 | h2
          · simp [h1]
          · simp [show ¬ (0 < p.2) from not_lt.mpr h2]
      rw [hb, List.nil_append]
      exact ih fun b hb => h b (List.mem_cons_of_mem _ hb)
  simp [finalizeWorkoutDraft, hflat]

/-- Witness for C8: a draft holding one batch with an empty type and one
batch whose only pair has zero reps fails to finalize and is retained. -/
theorem C8_finalize_empty_draft_witness :
    finalizeWorkoutDraft [⟨"x 0", "", [(5, 100)]⟩, ⟨"bench 0x0", "bench", [(0, 20)]⟩]
      emptyDB ⟨0, 0⟩ =
      (none, [⟨"x 0", "", [(5, 100)]⟩, ⟨"bench 0x0", "bench", [(0, 20)]⟩], emptyDB) :=
  C8_finalize_empty_draft _ emptyDB ⟨0, 0⟩ (by decide)

/-! ### Claim theorems: unmapped display labels (C5) -/

/-- A character kept by the key normalization is not whitespace. -/
theorem isKeyChar_not_space (c : Char) (h : isKeyChar c = true) :
    isPySpace c = false := by
  by_contra hs
  rw [Bool.not_eq_false] at hs
  simp only [isPySpace, Bool.or_eq_true, decide_eq_true_eq] at hs
  rcases hs with ((((rfl | rfl) | rfl) | rfl) | rfl) | rfl <;> revert h <;> decide

/-- A character kept by the key normalization is already lowercase. -/
theorem pyLower_keyChar (c : Char) (h : isKeyChar c = true) : pyLower c = c := by
  unfold pyLower
  split_ifs with hU
  · simp only [Bool.and_eq_true, decide_eq_true_eq] at hU
    simp only [isKeyChar, isPyDigit, Bool.or_eq_true, Bool.and_eq_true,
      decide_eq_true_eq] at h
    rcases h with ⟨ha, _⟩ | ⟨_, h9⟩
    · exact absurd (le_trans ha hU.2) (by decide)
    · exact absurd (le_trans hU.1 h9) (by decide)
  · rfl

/-- Stripping whitespace from a list without whitespace is the identity. -/
theorem pyStrip_eq_self (l : List Char) (h : ∀ c ∈ l, isPySpace c = false) :
    pyStrip l = l := by
  unfold pyStrip
  have h1 : l.dropWhile isPySpace = l := by
    cases l with
    | nil => rfl
    | cons c cs => rw [List.dropWhile_cons, h c (List.mem_cons_self c cs)]; rfl
  rw [h1]
  have h2 : l.reverse.dropWhile isPySpace = l.reverse := by
    cases hr : l.reverse with
    | nil => rfl
    | cons c cs =>
      have hc : isPySpace c = false := h c (by
        rw [← List.mem_reverse, hr]; exact List.mem_cons_self c cs)
      rw [List.dropWhile_cons, hc]; rfl
  rw [h2, List.reverse_reverse]

/-- `_normalize_workout_type_key` is idempotent: its output consists of
lowercase alphanumerics only, which the strip/lower/filter pipeline leaves
unchanged. -/
theorem normKey_idem (s : String) :
    normalizeWorkoutTypeKey (normalizeWorkoutTypeKey s) =
      normalizeWorkoutTypeKey s := by
  unfold normalizeWorkoutTypeKey
  have hkc : ∀ c ∈ ((pyStrip s.toList).map pyLower).filter isKeyChar,
      isKeyChar c = true := fun c hc => List.of_mem_filter hc
  rw [show (String.mk (((pyStrip s.toList).map pyLower).filter isKeyChar)).toList =
    ((pyStrip s.toList).map pyLower).filter isKeyChar from rfl]
  rw [pyStrip_eq_self _ fun c hc => isKeyChar_not_space c (hkc c hc)]
  have hmap : (((pyStrip s.toList).map pyLower).filter isKeyChar).map pyLower =
      ((pyStrip s.toList).map pyLower).filter isKeyChar := by
    have := List.map_congr_left fun c hc => pyLower_keyChar c (hkc c hc)
    simpa using this
  rw [hmap, List.filter_eq_self.mpr hkc]

/-- C5 counterexample: logging `"cossack squat"` (no taxonomy match) stores
the display label `"cossacksquat"` — the whitespace-stripped normalized KEY —
while the normalized input label (lowercased, whitespace collapsed, otherwise
preserved) is `"cossack squat"`.  The stored label therefore does NOT equal
the normalized input label. -/
theorem C5_counterexample :
    ∃ db2,
      logWorkoutWithEntries emptyDB ⟨0, 0⟩ [("cossack squat", 5, 100)] "" =
        .ok (db2, 1) ∧
      db2.entries.map (fun e => e.workout_display_name) = ["cossacksquat"] ∧
      normalizeWorkoutLabel "cossack squat" = "cossack squat" ∧
      ("cossacksquat" : String) ≠ "cossack squat" :=
  ⟨_, rfl, by decide, by decide, by decide⟩

/-- C5 amended: for an entry logged via `log_workout_with_entries` whose
workout type has no taxonomy match (and a nonempty normalized key), the
stored display label equals the normalized type KEY — lowercased with every
non-alphanumeric character (including internal whitespace) removed — rather
than the whitespace-preserving normalized label, and body-area lookup of the
stored type yields `"unmapped"`, under which body-area aggregation counts
the entry's sets. -/
theorem C5_unmapped_label_is_key (db : GymDB) (now : DateTime)
    (entries : List (String × Int × ℚ)) (note : String)
    (t : String) (reps : Int) (w : ℚ)
    (hmem : (t, reps, w) ∈ entries)
    (hkey : normalizeWorkoutTypeKey t ≠ "")
    (hfind : findMove (normalizeWorkoutTypeKey t) = none)
    (db2 : GymDB) (wid : Nat)
    (hok : logWorkoutWithEntries db now entries note = .ok (db2, wid)) :
    (⟨wid, normalizeWorkoutTypeKey t, normalizeWorkoutTypeKey t, reps, w, now,
      pyStripStr note⟩ : WorkoutEntry) ∈ db2.entries ∧
    lookupBodyArea (normalizeWorkoutTypeKey t) = "unmapped" := by
  have hdisp : displayLabelForKey (normalizeWorkoutTypeKey t) =
      normalizeWorkoutTypeKey t := by
    unfold displayLabelForKey
    rw [hfind]
  have hne : normalizeLogEntry (t, reps, w) =
      some (normalizeWorkoutTypeKey t, normalizeWorkoutTypeKey t, reps, w) := by
    simp [normalizeLogEntry, hkey, hdisp]
  constructor
  · have h1 : entries ≠ [] := List.ne_nil_of_mem hmem
    have h2 : entries.filterMap normalizeLogEntry ≠ [] := by
      intro hc
      exact hkey ((normalizeLogEntry_eq_none _).mp
        (List.filterMap_eq_nil_iff.mp hc _ hmem))
    unfold logWorkoutWithEntries at hok
    simp only [if_neg h1, if_neg h2, Except.ok.injEq, Prod.mk.injEq] at hok
    obtain ⟨rfl, rfl⟩ := hok
    apply List.mem_append_right
    apply List.mem_map.mpr
    exact ⟨(normalizeWorkoutTypeKey t, normalizeWorkoutTypeKey t, reps, w),
      List.mem_filterMap.mpr ⟨(t, reps, w), hmem, hne⟩, rfl⟩
  · simp [lookupBodyArea, normKey_idem, hkey, hfind]

/-- Witness for the amended C5 at the counterexample input: the stored type
and label are both `"cossacksquat"`, and the body-area aggregation for the
created workout reports its single set under `"unmapped"`. -/
theorem C5_unmapped_label_is_key_witness :
    ∃ db2,
      (logWorkoutWithEntries emptyDB ⟨0, 0⟩ [("cossack squat", 5, 100)] "" =
        .ok (db2, 1) ∧
      (⟨1, normalizeWorkoutTypeKey "cossack squat",
        normalizeWorkoutTypeKey "cossack squat", 5, 100, ⟨0, 0⟩,
        pyStripStr ""⟩ : WorkoutEntry) ∈ db2.entries ∧
      lookupBodyArea (normalizeWorkoutTypeKey "cossack squat") = "unmapped") ∧
      summarizeSetsByBodyAreaForWorkout db2 1 = [("unmapped", 1)] := by
  refine ⟨_, ⟨rfl, ?_, ?_⟩, by decide⟩
  · exact (C5_unmapped_label_is_key emptyDB ⟨0, 0⟩ [("cossack squat", 5, 100)] ""
      "cossack squat" 5 100 (by decide) (by decide) (by decide) _ 1 rfl).1
  · exact (C5_unmapped_label_is_key emptyDB ⟨0, 0⟩ [("cossack squat", 5, 100)] ""
      "cossack squat" 5 100 (by decide) (by decide) (by decide) _ 1 rfl).2

/-! ### Claim theorems: the period summary (C1) -/

/-- C1 (documents a code bug): the dict returned by
`period_workout_summary` has no `"skips"` key and no `"total_volume"` key,
for every database and window; consequently
`_build_period_summary_lines`, which reads `summary["skips"]` and
`summary["total_volume"]`, hits a `KeyError` (modelled as `none`) on every
summary request, instead of producing the composed summary the specification
describes. -/
theorem C1_period_summary_missing_keys (db : GymDB) (now start stop : DateTime) :
    dictGet (periodWorkoutSummary db start stop) "skips" = none ∧
    dictGet (periodWorkoutSummary db start stop) "total_volume" = none ∧
    buildPeriodSummaryLines db now "week" = none ∧
    buildPeriodSummaryLines db now "month" = none ∧
    buildPeriodSummaryLines db now "quarter" = none :=
  ⟨rfl, rfl, rfl, rfl, rfl⟩

/-! ### Claim theorems: weekly deadline nudges (C3, C4) -/

/-- Totality of the `DateTime` order. -/
theorem dtLe_of_not_dtLt (a b : DateTime) (h : ¬ dtLt a b) : dtLe b a := by
  unfold dtLt at h
  unfold dtLe
  omega

/-- A milestone's loop step never adds a pair carrying another milestone
number. -/
theorem mem_nudgeLoopStep_of_ne (now : DateTime) (acc : List (Int × Nat) × GymDB)
    (m : WeeklyMilestone) (w : Int) (n : Nat) (hne : n ≠ m.milestone) :
    ((w, n) ∈ (nudgeLoopStep now acc m).1 ↔ (w, n) ∈ acc.1) := by
  unfold nudgeLoopStep
  dsimp only
  split_ifs <;> simp [hne]

/-- The workouts table is untouched by a loop step (only nudge marks are
written). -/
theorem nudgeLoopStep_workouts (now : DateTime) (acc : List (Int × Nat) × GymDB)
    (m : WeeklyMilestone) :
    (nudgeLoopStep now acc m).2.workouts = acc.2.workouts := by
  unfold nudgeLoopStep markWeeklyNudgeSent
  dsimp only
  split_ifs <;> rfl

theorem countWorkoutsBetween_nudgeLoopStep (now : DateTime)
    (acc : List (Int × Nat) × GymDB) (m : WeeklyMilestone) (a b : DateTime) :
    countWorkoutsBetween (nudgeLoopStep now acc m).2 a b =
      countWorkoutsBetween acc.2 a b := by
  unfold countWorkoutsBetween
  rw [nudgeLoopStep_workouts]

/-- A loop step changes the sent-mark of a pair only for its own milestone
number. -/
theorem weeklyNudgeSent_nudgeLoopStep_ne (now : DateTime)
    (acc : List (Int × Nat) × GymDB) (m : WeeklyMilestone) (w : Int) (n : Nat)
    (hne : n ≠ m.milestone) :
    weeklyNudgeSent (nudgeLoopStep now acc m).2 w n =
      weeklyNudgeSent acc.2 w n := by
  unfold nudgeLoopStep
  dsimp only
  split_ifs with h1 h2 h3
  · rfl
  · rfl
  · rfl
  · unfold markWeeklyNudgeSent
    rw [if_neg h1]
    simp [weeklyNudgeSent, List.any_append, Ne.symm hne]

/-- Characterization of a loop step for its own milestone: given that the
pair is not already in the accumulated sent list, the pair is appended
exactly when it is unmarked, the deadline has passed, and the pre-deadline
workout count is below the requirement. -/
theorem mem_nudgeLoopStep_self (now : DateTime) (acc : List (Int × Nat) × GymDB)
    (m : WeeklyMilestone)
    (hnotin : (weekStartDay now, m.milestone) ∉ acc.1) :
    ((weekStartDay now, m.milestone) ∈ (nudgeLoopStep now acc m).1 ↔
      (weeklyNudgeSent acc.2 (weekStartDay now) m.milestone = false ∧
        dtLe (deadlineFor now m) now ∧
        countWorkoutsBetween acc.2 (weekStart now) (deadlineFor now m) <
          m.required_workouts)) := by
  unfold nudgeLoopStep
  dsimp only
  split_ifs with h1 h2 h3
  · simp [hnotin, h1]
  · have : ¬ dtLe (deadlineFor now m) now := fun hle => by
      unfold dtLt at h2
      unfold dtLe at hle
      omega
    simp [hnotin, this]
  · simp [hnotin, Nat.not_lt.mpr h3]
  · simp only [List.mem_append, List.mem_singleton, or_iff_right hnotin]
    constructor
    · intro _
      exact ⟨by simpa using h1, dtLe_of_not_dtLt _ _ h2, Nat.not_le.mp h3⟩
    · intro _
      trivial

/-- C3 counterexample: with one workout logged after the Tuesday-20:00
deadline but before the evaluation time (Tuesday 21:00 of the same week),
the workout count since week-start at evaluation time already meets
milestone 1's requirement, yet the milestone-1 nudge IS sent — the code
counts workouts in `[week_start, deadline)`, not up to the evaluation
time.  (Days count from a Monday, so day 1 minute 1230 is Tuesday 20:30.) -/
theorem C3_counterexample :
    ∃ m ∈ WEEKLY_MILESTONES,
      m.milestone = 1 ∧
      weeklyNudgeSent ⟨[⟨1, ⟨1, 1230⟩, 1, ""⟩], [], [], [], 2⟩
        (weekStartDay ⟨1, 1260⟩) m.milestone = false ∧
      m.required_workouts ≤
        countWorkoutsBetween ⟨[⟨1, ⟨1, 1230⟩, 1, ""⟩], [], [], [], 2⟩
          (weekStart ⟨1, 1260⟩) ⟨1, 1260⟩ ∧
      (weekStartDay ⟨1, 1260⟩, m.milestone) ∈
        (nudgeStep ⟨[⟨1, ⟨1, 1230⟩, 1, ""⟩], [], [], [], 2⟩ ⟨1, 1260⟩).1 := by
  decide

/-- C3 amended: whenever the weekly nudge evaluation runs and a milestone is
not yet marked sent for the current week, its nudge is sent exactly when the
evaluation time is at or past the milestone's deadline and the count of
workouts logged in `[week_start, deadline)` — before the deadline, not up to
the evaluation time — is below the milestone's requirement. -/
theorem C3_nudge_sent_iff (db : GymDB) (now : DateTime) (m : WeeklyMilestone)
    (hm : m ∈ WEEKLY_MILESTONES)
    (hns : weeklyNudgeSent db (weekStartDay now) m.milestone = false) :
    ((weekStartDay now, m.milestone) ∈ (nudgeStep db now).1 ↔
      (dtLe (deadlineFor now m) now ∧
        countWorkoutsBetween db (weekStart now) (deadlineFor now m) <
          m.required_workouts)) := by
  fin_cases hm
  · -- milestone 1
    rw [show nudgeStep db now = nudgeLoopStep now (nudgeLoopStep now
      (nudgeLoopStep now ([], db) ⟨1, 1, 1, 20, 0, "Tuesday 8:00 PM"⟩)
      ⟨2, 2, 3, 20, 0, "Thursday 8:00 PM"⟩) ⟨3, 3, 6, 16, 0, "Sunday 4:00 PM"⟩
      from rfl]
    rw [mem_nudgeLoopStep_of_ne _ _ _ _ _ (by decide),
      mem_nudgeLoopStep_of_ne _ _ _ _ _ (by decide),
      mem_nudgeLoopStep_self _ _ _ (by simp)]
    simp [hns]
  · -- milestone 2
    rw [show nudgeStep db now = nudgeLoopStep now (nudgeLoopStep now
      (nudgeLoopStep now ([], db) ⟨1, 1, 1, 20, 0, "Tuesday 8:00 PM"⟩)
      ⟨2, 2, 3, 20, 0, "Thursday 8:00 PM"⟩) ⟨3, 3, 6, 16, 0, "Sunday 4:00 PM"⟩
      from rfl]
    rw [mem_nudgeLoopStep_of_ne _ _ _ _ _ (by decide),
      mem_nudgeLoopStep_self _ _ _ (by
        rw [mem_nudgeLoopStep_of_ne _ _ _ _ _ (by decide)]
        simp),
      weeklyNudgeSent_nudgeLoopStep_ne _ _ _ _ _ (by decide),
      countWorkoutsBetween_nudgeLoopStep]
    simp [hns]
  · -- milestone 3
    rw [show nudgeStep db now = nudgeLoopStep now (nudgeLoopStep now
      (nudgeLoopStep now ([], db) ⟨1, 1, 1, 20, 0, "Tuesday 8:00 PM"⟩)
      ⟨2, 2, 3, 20, 0, "Thursday 8:00 PM"⟩) ⟨3, 3, 6, 16, 0, "Sunday 4:00 PM"⟩
      from rfl]
    rw [mem_nudgeLoopStep_self _ _ _ (by
        rw [mem_nudgeLoopStep_of_ne _ _ _ _ _ (by decide),
          mem_nudgeLoopStep_of_ne _ _ _ _ _ (by decide)]
        simp),
      weeklyNudgeSent_nudgeLoopStep_ne _ _ _ _ _ (by decide),
      weeklyNudgeSent_nudgeLoopStep_ne _ _ _ _ _ (by decide),
      countWorkoutsBetween_nudgeLoopStep, countWorkoutsBetween_nudgeLoopStep]
    simp [hns]

/-- Witness for the amended C3 at the counterexample state: milestone 1's
nudge is sent there because the pre-deadline count (0) is below the
requirement (1), although the post-deadline workout has already met the
requirement by evaluation time. -/
theorem C3_nudge_sent_iff_witness :
    weeklyNudgeSent ⟨[⟨1, ⟨1, 1230⟩, 1, ""⟩], [], [], [], 2⟩
      (weekStartDay ⟨1, 1260⟩) 1 = false ∧
    (weekStartDay ⟨1, 1260⟩, 1) ∈
      (nudgeStep ⟨[⟨1, ⟨1, 1230⟩, 1, ""⟩], [], [], [], 2⟩ ⟨1, 1260⟩).1 :=
  ⟨by decide,
    (C3_nudge_sent_iff ⟨[⟨1, ⟨1, 1230⟩, 1, ""⟩], [], [], [], 2⟩ ⟨1, 1260⟩
      ⟨1, 1, 1, 20, 0, "Tuesday 8:00 PM"⟩ (by decide) (by decide)).mpr
      ⟨by decide, by decide⟩⟩

/-- Marking a pair makes exactly that pair read as sent; all other pairs are
unchanged. -/
theorem weeklyNudgeSent_mark (db : GymDB) (w : Int) (n : Nat) (t : DateTime)
    (w' : Int) (n' : Nat) :
    weeklyNudgeSent (markWeeklyNudgeSent db w n t) w' n' =
      (weeklyNudgeSent db w' n' || (decide (w = w') && decide (n = n'))) := by
  unfold markWeeklyNudgeSent
  split_ifs with h
  · by_cases hw : w = w' ∧ n = n'
    · obtain ⟨rfl, rfl⟩ := hw
      simp [h]
    · have hf : (decide (w = w') && decide (n = n')) = false := by
        rcases not_and_or.mp hw with h1 | h1 <;> simp [h1]
      rw [hf, Bool.or_false]
  · simp [weeklyNudgeSent, List.any_append]

/-- A pair reads as unsent exactly when it has no row in the nudge table. -/
theorem weeklyNudgeSent_eq_false_iff (db : GymDB) (p : Int × Nat) :
    weeklyNudgeSent db p.1 p.2 = false ↔ nudgeRecordCount db p = 0 := by
  unfold weeklyNudgeSent nudgeRecordCount
  rw [List.length_eq_zero, List.filter_eq_nil_iff, List.any_eq_false]

/-- `ON CONFLICT DO NOTHING` adds a row for a pair only when the pair is
absent. -/
theorem nudgeRecordCount_mark (db : GymDB) (w : Int) (n : Nat) (t : DateTime)
    (p : Int × Nat) :
    nudgeRecordCount (markWeeklyNudgeSent db w n t) p =
      nudgeRecordCount db p +
        (if weeklyNudgeSent db w n = false ∧ p = (w, n) then 1 else 0) := by
  unfold markWeeklyNudgeSent
  by_cases h : weeklyNudgeSent db w n
  · rw [if_pos h]
    have hcond : ¬ (weeklyNudgeSent db w n = false ∧ p = (w, n)) := fun hc => by
      rw [h] at hc
      exact absurd hc.1 (by simp)
    rw [if_neg hcond, Nat.add_zero]
  · rw [if_neg h]
    have hfalse : weeklyNudgeSent db w n = false := by simpa using h
    unfold nudgeRecordCount
    rw [List.filter_append, List.length_append]
    by_cases hp : p = (w, n)
    · subst hp
      rw [if_pos ⟨hfalse, rfl⟩]
      simp
    · have hcond : ¬ (weeklyNudgeSent db w n = false ∧ p = (w, n)) := fun hc => hp hc.2
      rw [if_neg hcond]
      have hwn : ¬ (w = p.1 ∧ n = p.2) := fun hh =>
        hp (Prod.ext hh.1.symm hh.2.symm)
      rcases not_and_or.mp hwn with h1 | h1 <;> simp [h1]

/-- A milestone iteration either leaves the accumulator unchanged or, when
its milestone is unmarked, appends its pair and marks it. -/
theorem nudgeLoopStep_cases (now : DateTime) (acc : List (Int × Nat) × GymDB)
    (m : WeeklyMilestone) :
    nudgeLoopStep now acc m = acc ∨
      (weeklyNudgeSent acc.2 (weekStartDay now) m.milestone = false ∧
        nudgeLoopStep now acc m =
          (acc.1 ++ [(weekStartDay now, m.milestone)],
            markWeeklyNudgeSent acc.2 (weekStartDay now) m.milestone now)) := by
  unfold nudgeLoopStep
  dsimp only
  split_ifs with a b c
  · exact Or.inl rfl
  · exact Or.inl rfl
  · exact Or.inl rfl
  · exact Or.inr ⟨by simpa using a, rfl⟩

/-- Single-step potential: one milestone iteration cannot increase
`(times p was sent so far) + (1 if p is still unmarked)`, and it preserves
uniqueness of p's table row. -/
theorem nudgeLoopStep_potential (now : DateTime) (p : Int × Nat)
    (acc : List (Int × Nat) × GymDB) (m : WeeklyMilestone) :
    ((nudgeLoopStep now acc m).1.count p +
        (if weeklyNudgeSent (nudgeLoopStep now acc m).2 p.1 p.2 then 0 else 1) ≤
      acc.1.count p + (if weeklyNudgeSent acc.2 p.1 p.2 then 0 else 1)) ∧
    (nudgeRecordCount acc.2 p ≤ 1 →
      nudgeRecordCount (nudgeLoopStep now acc m).2 p ≤ 1) := by
  rcases nudgeLoopStep_cases now acc m with heq | ⟨ha, heq⟩
  · rw [heq]
    exact ⟨le_refl _, id⟩
  · rw [heq]
    have hmark := weeklyNudgeSent_mark acc.2 (weekStartDay now) m.milestone now p.1 p.2
    have hrc := nudgeRecordCount_mark acc.2 (weekStartDay now) m.milestone now p
    constructor
    · show (acc.1 ++ [(weekStartDay now, m.milestone)]).count p + _ ≤ _
      rw [List.count_append, hmark]
      by_cases hp : p = (weekStartDay now, m.milestone)
      · subst hp
        simp [ha]
      · have hd : (decide (weekStartDay now = p.1) && decide (m.milestone = p.2)) = false := by
          have hwn : ¬ (weekStartDay now = p.1 ∧ m.milestone = p.2) := fun hh =>
            hp (Prod.ext hh.1.symm hh.2.symm)
          rcases not_and_or.mp hwn with h1 | h1 <;> simp [h1]
        have hcnt : List.count p [(weekStartDay now, m.milestone)] = 0 :=
          List.count_eq_zero.mpr (by simp [hp])
        rw [hcnt, hd, Bool.or_false, Nat.add_zero]
    · intro hle
      show nudgeRecordCount (markWeeklyNudgeSent acc.2 (weekStartDay now) m.milestone now) p ≤ 1
      rw [hrc]
      by_cases hp : p = (weekStartDay now, m.milestone)
      · subst hp
        rw [(weeklyNudgeSent_eq_false_iff acc.2 _).mp ha, if_pos ⟨ha, rfl⟩]
      · rw [if_neg fun hc => hp hc.2, Nat.add_zero]
        exact hle

/-- Fold-level potential over any list of milestones. -/
theorem nudgeFold_potential (now : DateTime) (p : Int × Nat) :
    ∀ (ms : List WeeklyMilestone) (acc : List (Int × Nat) × GymDB),
    ((ms.foldl (nudgeLoopStep now) acc).1.count p +
        (if weeklyNudgeSent (ms.foldl (nudgeLoopStep now) acc).2 p.1 p.2
          then 0 else 1) ≤
      acc.1.count p + (if weeklyNudgeSent acc.2 p.1 p.2 then 0 else 1)) ∧
    (nudgeRecordCount acc.2 p ≤ 1 →
      nudgeRecordCount (ms.foldl (nudgeLoopStep now) acc).2 p ≤ 1)
  | [], acc => ⟨le_refl _, id⟩
  | m :: ms, acc => by
    rw [List.foldl_cons]
    have hstep := nudgeLoopStep_potential now p acc m
    have hrest := nudgeFold_potential now p ms (nudgeLoopStep now acc m)
    exact ⟨le_trans hrest.1 hstep.1, fun h => hrest.2 (hstep.2 h)⟩

/-- Sequence-level potential: across any sequence of evaluation runs (with
arbitrary workout tables per run), the total number of times a pair is sent
plus its remaining unsent budget never increases, and its nudge-table row
stays unique. -/
theorem runSeq_potential (p : Int × Nat) :
    ∀ (runs : List (DateTime × List Workout)) (db : GymDB),
    (totalSends p (runSeq db runs).1 +
        (if weeklyNudgeSent (runSeq db runs).2 p.1 p.2 then 0 else 1) ≤
      (if weeklyNudgeSent db p.1 p.2 then 0 else 1)) ∧
    (nudgeRecordCount db p ≤ 1 → nudgeRecordCount (runSeq db runs).2 p ≤ 1)
  | [], db => by
    constructor
    · simp [runSeq, totalSends]
    · exact fun h => h
  | (now, ws) :: rest, db => by
    have hstep := nudgeFold_potential now p WEEKLY_MILESTONES
      ([], { db with workouts := ws })
    have hrest := runSeq_potential p rest
      (nudgeStep { db with workouts := ws } now).2
    have hts : totalSends p (runSeq db ((now, ws) :: rest)).1 =
        (nudgeStep { db with workouts := ws } now).1.count p +
          totalSends p (runSeq (nudgeStep { db with workouts := ws } now).2 rest).1 := by
      show totalSends p ((nudgeStep { db with workouts := ws } now).1 ::
        (runSeq (nudgeStep { db with workouts := ws } now).2 rest).1) = _
      unfold totalSends
      rw [List.map_cons, List.sum_cons]
    have hfin : (runSeq db ((now, ws) :: rest)).2 =
        (runSeq (nudgeStep { db with workouts := ws } now).2 rest).2 := rfl
    have hb1 : weeklyNudgeSent { db with workouts := ws } p.1 p.2 =
        weeklyNudgeSent db p.1 p.2 := rfl
    constructor
    · rw [hts, hfin]
      have h1 := hstep.1
      rw [hb1] at h1
      simp only [List.count_nil, Nat.zero_add] at h1
      have h2 := hrest.1
      unfold nudgeStep at h2 ⊢
      omega
    · intro hle
      rw [hfin]
      exact hrest.2 (hstep.2 hle)

/-- C4: for every `(week_start, milestone)` pair that is not yet marked
sent, at most one nudge for it is ever sent across any sequence of
evaluation runs — with arbitrary run times and arbitrary workout logging
between runs, and with process restarts covered because the marks thread
through the persisted database state — and its `weekly_nudges` row is
created at most once. -/
theorem C4_nudge_at_most_once (db : GymDB)
    (runs : List (DateTime × List Workout)) (p : Int × Nat)
    (h : weeklyNudgeSent db p.1 p.2 = false) :
    totalSends p (runSeq db runs).1 ≤ 1 ∧
    nudgeRecordCount (runSeq db runs).2 p ≤ 1 := by
  have hp := runSeq_potential p runs db
  constructor
  · have h1 := hp.1
    rw [h] at h1
    split_ifs at h1 <;> omega
  · refine hp.2 ?_
    rw [(weeklyNudgeSent_eq_false_iff db p).mp h]
    exact Nat.zero_le 1

/-- Witness for C4: three evaluation runs after the Tuesday deadline (the
third on Wednesday) send the milestone-1 nudge exactly once in total and
leave exactly one `weekly_nudges` row for the pair. -/
theorem C4_nudge_at_most_once_witness :
    weeklyNudgeSent emptyDB 0 1 = false ∧
    totalSends (0, 1)
      (runSeq emptyDB [(⟨1, 1260⟩, []), (⟨1, 1300⟩, []), (⟨2, 100⟩, [])]).1 ≤ 1 ∧
    nudgeRecordCount
      (runSeq emptyDB [(⟨1, 1260⟩, []), (⟨1, 1300⟩, []), (⟨2, 100⟩, [])]).2
      (0, 1) ≤ 1 ∧
    totalSends (0, 1)
      (runSeq emptyDB [(⟨1, 1260⟩, []), (⟨1, 1300⟩, []), (⟨2, 100⟩, [])]).1 = 1 :=
  ⟨by decide,
    (C4_nudge_at_most_once emptyDB [(⟨1, 1260⟩, []), (⟨1, 1300⟩, []), (⟨2, 100⟩, [])]
      (0, 1) (by decide)).1,
    (C4_nudge_at_most_once emptyDB [(⟨1, 1260⟩, []), (⟨1, 1300⟩, []), (⟨2, 100⟩, [])]
      (0, 1) (by decide)).2,
    by decide⟩

end GymBuddy
